import Mathlib

/-!
Verification development for the prompt-enhancer frontend orchestrator
(`frontend/src/Interaction.jsx`).  The definitions below are a shallow
embedding of the turn workflow: the `Turn` record, the
`choosePromptVersion` resolution logic, the submit / regenerate /
answer-completion updates, the localStorage persistence filter and
rehydration, conversation deletion, and the reasoning transform.
JavaScript nullable string fields become `Option String`; JS truthiness
of a nullable string (`null` and `""` are both falsy) is modelled by
`strTruthy` and the `x || null` coercion by `jsOrNull`.
-/

namespace PromptEnhancer

/-- Workflow stage of a turn (`reasoningStage` in the source):
`classifying → rewritten → answering → done`. -/
inductive Stage where
  | classifying
  | rewritten
  | answering
  | done
deriving DecidableEq, Repr

/-- Prompt variant (`chosenPromptVersion` in the source). -/
inductive Variant where
  | original
  | rewritten
  | edited
deriving DecidableEq, Repr

/-- One request/response cycle, mirroring the turn objects built in
`handleSubmit` (Interaction.jsx lines 169-185 and 272-287). -/
structure Turn where
  id : String
  conversationId : String
  originalPrompt : String
  mode : Option String
  intent : Option String
  topic : Option String
  rewritten_prompt : Option String
  rewrite_strategy : Option String
  edited_prompt : Option String
  final_answer : Option String
  decisionRationale : Option String
  promptFeedback : Option String
  reasoningStage : Stage
  chosenPromptVersion : Option Variant
  interaction_id : Option String
  showReasoning : Bool
deriving DecidableEq, Repr

/-- Response shape of the `/interact` endpoint (frontend/src/types.ts,
plus the `showReasoning` flag the component reads with `??`). -/
structure InteractResponse where
  interaction_id : String
  conversationId : String
  intent : Option String
  topic : Option String
  rewritten_prompt : Option String
  rewrite_strategy : Option String
  decisionRationale : String
  promptFeedback : Option String
  final_answer : Option String
  showReasoning : Option Bool
deriving DecidableEq, Repr

/-- Whitespace stripping from both ends of a character list, used to
model the JavaScript `String.prototype.trim`.  (Implemented over
`List Char` so that the kernel can evaluate it on concrete strings.) -/
def trimChars (cs : List Char) : List Char :=
  ((cs.dropWhile Char.isWhitespace).reverse.dropWhile Char.isWhitespace).reverse

/-- The JavaScript `s.trim()`. -/
def jsTrim (s : String) : String :=
  String.mk (trimChars s.data)

/-- Splitting a character list on a separator character, keeping empty
segments, used to model the JavaScript `s.split(sep)` for a one-character
separator. -/
def splitCharList (sep : Char) : List Char → List (List Char)
  | [] => [[]]
  | c :: rest =>
      let r := splitCharList sep rest
      if c = sep then [] :: r
      else
        match r with
        | [] => [[c]]
        | h :: t => (c :: h) :: t

/-- The JavaScript `s.split(sep)` for a one-character separator. -/
def jsSplit (s : String) (sep : Char) : List String :=
  (splitCharList sep s.data).map String.mk

/-- Joining words with a separator character (the JavaScript
`words.join(sep)`). -/
def joinChar (sep : Char) : List (List Char) → List Char
  | [] => []
  | [w] => w
  | w :: rest => w ++ sep :: joinChar sep rest

/-- JS truthiness of a nullable string: `null` and `""` are falsy. -/
def strTruthy : Option String → Bool
  | none => false
  | some s => decide (s ≠ "")

/-- The JS coercion `s || null`, mapping the empty string to `null`. -/
def jsOrNull : Option String → Option String
  | none => none
  | some s => if s = "" then none else some s

/-- The JS pattern `s || d` on a nullable string with default `d`. -/
def jsOrStr (o : Option String) (d : String) : String :=
  match o with
  | none => d
  | some s => if s = "" then d else s

/-- Turn created by `handleSubmit` when the enhancer is disabled
(Interaction.jsx lines 169-185): it enters the visible list at stage
`answering` with `chosenPromptVersion = original`. -/
def submitDisabledTurn (turnId : String) (cid : Option String) (p : String) : Turn :=
  { id := turnId
    conversationId := jsOrStr cid "pending"
    originalPrompt := p
    mode := none
    intent := none
    topic := none
    rewritten_prompt := none
    rewrite_strategy := none
    edited_prompt := none
    final_answer := none
    decisionRationale := none
    promptFeedback := none
    reasoningStage := Stage.answering
    chosenPromptVersion := some Variant.original
    interaction_id := none
    showReasoning := false }

/-- Pending turn created by `handleSubmit` when the enhancer is enabled
(Interaction.jsx lines 272-287): stage `classifying`, no chosen variant. -/
def submitEnabledTurn (turnId : String) (cid : Option String) (p m : String) : Turn :=
  { id := turnId
    conversationId := jsOrStr cid "pending"
    originalPrompt := p
    mode := some m
    intent := none
    topic := none
    rewritten_prompt := none
    rewrite_strategy := none
    edited_prompt := none
    final_answer := none
    decisionRationale := none
    promptFeedback := none
    reasoningStage := Stage.classifying
    chosenPromptVersion := none
    interaction_id := none
    showReasoning := true }

/-- Successful `/interact` result applied to the pending turn
(Interaction.jsx lines 333-346): fills the rewrite fields and jumps the
stage to `rewritten`. -/
def applyInteractEnabled (t : Turn) (r : InteractResponse) : Turn :=
  { t with
    conversationId := r.conversationId
    intent := r.intent
    topic := r.topic
    rewritten_prompt := r.rewritten_prompt
    rewrite_strategy := r.rewrite_strategy
    decisionRationale := some r.decisionRationale
    promptFeedback := r.promptFeedback
    interaction_id := some r.interaction_id
    showReasoning := r.showReasoning.getD true
    reasoningStage := Stage.rewritten }

/-- Failed `/interact` call applied to the pending turn (Interaction.jsx
lines 357-365): intent becomes the `error` sentinel, the rewrite fields
are cleared and the stage jumps straight to `done`. -/
def applyInteractFailure (t : Turn) (msg : String) : Turn :=
  { t with
    intent := some "error"
    topic := some ""
    rewritten_prompt := none
    rewrite_strategy := none
    final_answer := some ("Error: " ++ msg)
    reasoningStage := Stage.done }

/-- Successful `/interact` result for the enhancer-off path
(Interaction.jsx lines 239-251): stores the answer and finishes the turn. -/
def applyInteractDisabled (t : Turn) (r : InteractResponse) : Turn :=
  { t with
    conversationId := r.conversationId
    final_answer := r.final_answer
    decisionRationale := some r.decisionRationale
    reasoningStage := Stage.done
    interaction_id := some r.interaction_id
    showReasoning := r.showReasoning.getD false }

/-- Successful `/answer` completion (Interaction.jsx lines 504-512). -/
def applyAnswerSuccess (t : Turn) (ans : String) : Turn :=
  { t with final_answer := some ans, reasoningStage := Stage.done }

/-- Failed `/answer` call, and also the failed enhancer-off `/interact`
call (Interaction.jsx lines 257-265 and 516-524): the error-sentinel
string is stored as the answer and the turn terminates in `done`. -/
def applyAnswerFailure (t : Turn) (msg : String) : Turn :=
  { t with final_answer := some ("Error: " ++ msg), reasoningStage := Stage.done }

/-- The edit check of `choosePromptVersion` (Interaction.jsx line 416):
`turn.rewritten_prompt && currentDraftValue !== turn.rewritten_prompt &&
currentDraftValue !== ''`, where `d` is the trimmed draft. -/
def isEditedDraft (rp : Option String) (d : String) : Bool :=
  match rp with
  | none => false
  | some r => decide (r ≠ "" ∧ d ≠ r ∧ d ≠ "")

/-- Effective variant computation of `choosePromptVersion`
(Interaction.jsx lines 418-427). -/
def actualVersionOf (v : Variant) (ed : Bool) : Variant :=
  match v with
  | Variant.original => Variant.original
  | Variant.rewritten => if ed then Variant.edited else Variant.rewritten
  | Variant.edited => if ed then Variant.edited else Variant.rewritten

/-- The stored `edited_prompt` value (Interaction.jsx line 430):
`(actualVersion === 'edited' || isEdited) ? currentDraftValue : null`. -/
def finalEditedPromptOf (av : Variant) (ed : Bool) (d : String) : Option String :=
  if av = Variant.edited ∨ ed = true then some d else none

/-- The prompt text sent to `/answer` (Interaction.jsx lines 433-437). -/
def promptForAnswerOf (av : Variant) (fep : Option String) (t : Turn) : String :=
  if av = Variant.edited ∧ strTruthy fep = true then fep.getD ""
  else if av = Variant.rewritten ∧ strTruthy t.rewritten_prompt = true then
    t.rewritten_prompt.getD ""
  else t.originalPrompt

/-- The synchronous part of `choosePromptVersion` (Interaction.jsx lines
395-475): trims the draft, resolves the effective variant, stores the
edited prompt, moves the turn to stage `answering`, and returns the
prompt text that the `/answer` call is issued with. -/
def resolveTurn (t : Turn) (v : Variant) (draftRewrite : String) : Turn × String :=
  let d := jsTrim draftRewrite
  let ed := isEditedDraft t.rewritten_prompt d
  let av := actualVersionOf v ed
  let fep := finalEditedPromptOf av ed d
  ({ t with
     chosenPromptVersion := some av
     edited_prompt := fep
     reasoningStage := Stage.answering
     final_answer := none },
   promptForAnswerOf av fep t)

/-- Applied by `handleRegenerate` to the pending turn (Interaction.jsx
lines 560-570): replaces the rewrite fields, clears the edited prompt
and updates the interaction id; intent, topic and stage are untouched. -/
def applyRegeneratePending (t : Turn) (r : InteractResponse) : Turn :=
  { t with
    rewritten_prompt := jsOrNull r.rewritten_prompt
    rewrite_strategy := r.rewrite_strategy
    decisionRationale := some r.decisionRationale
    promptFeedback := r.promptFeedback
    edited_prompt := none
    interaction_id := some r.interaction_id }

/-- Applied by `handleRegenerate` to a turn already in the visible list
(Interaction.jsx lines 572-583): same as the pending branch except that
the interaction id is not updated. -/
def applyRegenerateExisting (t : Turn) (r : InteractResponse) : Turn :=
  { t with
    rewritten_prompt := jsOrNull r.rewritten_prompt
    rewrite_strategy := r.rewrite_strategy
    decisionRationale := some r.decisionRationale
    promptFeedback := r.promptFeedback
    edited_prompt := none }

/-- The persistence filter (Interaction.jsx lines 103-105 and 46-48):
only turns that do not carry the legacy loading sentinels are saved or
reloaded.  Note that the filter inspects `final_answer` and `intent`,
not the workflow stage. -/
def isCompleteTurn (t : Turn) : Bool :=
  decide (t.final_answer ≠ some "__LOADING__" ∧ t.intent ≠ some "loading")

/-- The list of turns written into a conversation entry
(`completeTurns` in the save effect, Interaction.jsx lines 103-105). -/
def completeTurns (ts : List Turn) : List Turn :=
  ts.filter isCompleteTurn

/-- Backward-compatibility defaulting applied to every turn when a
conversation is rehydrated (Interaction.jsx lines 50-61 and 664-675):
each nullable field is passed through `x || null`, which coerces empty
strings to `null`; stage and chosen variant are present in our model so
the `|| 'done'` / `|| null` defaults leave them unchanged. -/
def rehydrateTurn (t : Turn) : Turn :=
  { t with
    edited_prompt := jsOrNull t.edited_prompt
    rewrite_strategy := jsOrNull t.rewrite_strategy
    decisionRationale := jsOrNull t.decisionRationale
    promptFeedback := jsOrNull t.promptFeedback
    interaction_id := jsOrNull t.interaction_id }

/-- Conversation title computation (Interaction.jsx lines 108-109):
the first prompt truncated to 50 characters with an ellipsis. -/
def computeTitle (p : String) : String :=
  if p.data.length > 50 then String.mk (p.data.take 50) ++ "..." else p

/-- A stored conversation entry: `turns`, `title`, `updatedAt`
(Interaction.jsx line 21). -/
structure ConvData where
  turns : List Turn
  title : String
  updatedAt : Nat
deriving DecidableEq, Repr

/-- The conversations map.  JavaScript objects preserve key insertion
order, so the map is an ordered association list. -/
abbrev ConvMap := List (String × ConvData)

/-- The conversation entry written by the save effect (Interaction.jsx
lines 99-123): the filtered turn list together with the recomputed
title; nothing is written when no turn passes the filter. -/
def persistConv (ts : List Turn) (now : Nat) : Option ConvData :=
  let ct := completeTurns ts
  match ct.head? with
  | none => none
  | some t0 =>
      some { turns := ct
             title := computeTitle (jsOrStr (some t0.originalPrompt) "New Conversation")
             updatedAt := now }

/-- Key removal from the conversations map (`delete updated[target]`,
Interaction.jsx lines 690-694), preserving the order of the other keys. -/
def removeConv (m : ConvMap) (k : String) : ConvMap :=
  m.filter (fun p => decide (p.1 ≠ k))

/-- Lookup of `conversations[cid]`. -/
def lookupConv (m : ConvMap) (cid : String) : Option ConvData :=
  (m.find? (fun p => decide (p.1 = cid))).map Prod.snd

/-- Insertion of an element into a list sorted by `updatedAt`
descending (used to model the `getConversationList` sort). -/
def insertByUpdated (c : String × ConvData) : ConvMap → ConvMap
  | [] => [c]
  | d :: rest =>
      if d.2.updatedAt < c.2.updatedAt then c :: d :: rest
      else d :: insertByUpdated c rest

/-- The sidebar list (`getConversationList`, Interaction.jsx lines
713-717): conversations sorted by `updatedAt` descending. -/
def getConversationList : ConvMap → ConvMap
  | [] => []
  | c :: rest => insertByUpdated c (getConversationList rest)

/-- The most recently updated conversation: the head of the sorted
sidebar list. -/
def mostRecentlyUpdated (m : ConvMap) : Option String :=
  (getConversationList m).head?.map Prod.fst

/-- Result of confirming a conversation deletion: the new map, the new
active conversation pointer, and the new visible turn list. -/
structure DeleteResult where
  conversations : ConvMap
  conversationId : Option String
  turns : List Turn
deriving DecidableEq, Repr

/-- Deletion of a conversation (`handleConfirmDelete`, Interaction.jsx
lines 686-707).  When the deleted conversation was active, the code
switches to `remainingIds[remainingIds.length - 1]` — the last key of
the map in insertion order — or starts a fresh conversation when no key
remains; `switchConversation` rehydrates the target's stored turns. -/
def handleConfirmDelete (convs : ConvMap) (activeId : Option String)
    (curTurns : List Turn) (target : String) : DeleteResult :=
  let convs2 := removeConv convs target
  if activeId = some target then
    let remainingIds := (convs.map Prod.fst).filter (fun i => decide (i ≠ target))
    match remainingIds.getLast? with
    | some lastId =>
        match lookupConv convs lastId with
        | some conv =>
            { conversations := convs2
              conversationId := some lastId
              turns := conv.turns.map rehydrateTurn }
        | none =>
            { conversations := convs2, conversationId := activeId, turns := curTurns }
    | none =>
        { conversations := convs2, conversationId := none, turns := [] }
  else
    { conversations := convs2, conversationId := activeId, turns := curTurns }

/-- Strips one leading bullet-marker character and the whitespace
following it (the regex `^[-•*]\s*` of Interaction.jsx line 619),
applied to the raw, untrimmed line. -/
def stripBulletMarker (line : String) : String :=
  match line.data with
  | [] => line
  | c :: rest =>
      if c = '-' ∨ c = '•' ∨ c = '*' then
        String.mk (rest.dropWhile Char.isWhitespace)
      else line

/-- Capitalisation of one word (`word.charAt(0).toUpperCase() +
word.slice(1)`, Interaction.jsx line 637). -/
def capitalizeWord (w : String) : String :=
  match w.data with
  | [] => ""
  | c :: rest => String.mk (c.toUpper :: rest)

/-- Intent formatting used by the fallback summary (Interaction.jsx
lines 636-638): split on underscores, capitalise, join with spaces. -/
def formatIntentWords (i : String) : String :=
  String.mk (joinChar ' ' (((jsSplit i '_').map capitalizeWord).map String.data))

/-- Structured reasoning data produced by the transform
(`transformTurnToReasoningData`, Interaction.jsx lines 607-650). -/
structure ReasoningData where
  intent : String
  topic : String
  summary : String
  reasoningBullets : List String
  originalPrompt : String
  rewrittenPrompt : String
deriving DecidableEq, Repr

/-- The reasoning transform (`transformTurnToReasoningData`,
Interaction.jsx lines 607-650), translated clause by clause: the
feedback text is split into trimmed lines, bullet markers are stripped,
empty results are dropped, and the whole trimmed text is used as a
single bullet when nothing survives; the summary is the rationale's
first sentence, or a generic sentence built from the formatted intent
when the rationale is absent (falsy). -/
def transformTurnToReasoningData (t : Turn) : ReasoningData :=
  let reasoningBullets :=
    match t.promptFeedback with
    | none => []
    | some fb =>
        if fb = "" then []
        else
          let lines := (jsSplit fb '\n').filter (fun l => decide (jsTrim l ≠ ""))
          let bullets := (lines.map (fun l => jsTrim (stripBulletMarker l))).filter
            (fun s => decide (s ≠ ""))
          if bullets = [] ∧ jsTrim fb ≠ "" then [jsTrim fb] else bullets
  let summary :=
    match t.decisionRationale with
    | some r =>
        if r ≠ "" then
          (jsSplit r '.').headD "" ++ (if r.data.contains '.' then "." else "")
        else
          "The agent interpreted your prompt as seeking " ++
            (if strTruthy t.intent then formatIntentWords (t.intent.getD "")
             else "understanding") ++ "."
    | none =>
        "The agent interpreted your prompt as seeking " ++
          (if strTruthy t.intent then formatIntentWords (t.intent.getD "")
           else "understanding") ++ "."
  { intent := t.intent.getD ""
    topic := t.topic.getD ""
    summary := summary
    reasoningBullets := reasoningBullets
    originalPrompt := t.originalPrompt
    rewrittenPrompt := t.rewritten_prompt.getD "" }

/-- The operations that can touch a single turn after its creation. -/
inductive Op where
  | interactOk (r : InteractResponse)
  | interactFail (msg : String)
  | interactOffOk (r : InteractResponse)
  | interactOffFail (msg : String)
  | choose (v : Variant) (draft : String)
  | answerOk (ans : String)
  | answerFail (msg : String)
  | regen (r : InteractResponse)
  | rehydrate
deriving DecidableEq, Repr

/-- The effect of each operation on a turn, from the source handlers. -/
def applyOp (t : Turn) : Op → Turn
  | Op.interactOk r => applyInteractEnabled t r
  | Op.interactFail m => applyInteractFailure t m
  | Op.interactOffOk r => applyInteractDisabled t r
  | Op.interactOffFail m => applyAnswerFailure t m
  | Op.choose v d => (resolveTurn t v d).1
  | Op.answerOk a => applyAnswerSuccess t a
  | Op.answerFail m => applyAnswerFailure t m
  | Op.regen r => applyRegeneratePending t r
  | Op.rehydrate => rehydrateTurn t

/-- When each operation can fire on a turn, read off the call sites:
the `/interact` callbacks target the pending turn created at stage
`classifying`; the enhancer-off `/interact` callbacks and the `/answer`
callbacks target a turn sitting at stage `answering`;
`choosePromptVersion` is reachable only from the pre-choice modal
(Interaction.jsx lines 955-1005: stage neither `classifying` nor
`answering`, non-null intent, no chosen variant); `handleRegenerate`
requires a truthy mode (line 531) and is offered only before a variant
is chosen; rehydration applies to any stored turn. -/
def opEnabled (t : Turn) : Op → Prop
  | Op.interactOk _ => t.reasoningStage = Stage.classifying
  | Op.interactFail _ => t.reasoningStage = Stage.classifying
  | Op.interactOffOk _ => t.reasoningStage = Stage.answering
  | Op.interactOffFail _ => t.reasoningStage = Stage.answering
  | Op.choose _ _ =>
      t.reasoningStage ≠ Stage.classifying ∧ t.reasoningStage ≠ Stage.answering ∧
      t.intent ≠ none ∧ t.chosenPromptVersion = none
  | Op.answerOk _ => t.reasoningStage = Stage.answering
  | Op.answerFail _ => t.reasoningStage = Stage.answering
  | Op.regen _ => t.mode ≠ none ∧ t.chosenPromptVersion = none
  | Op.rehydrate => True

instance (t : Turn) (op : Op) : Decidable (opEnabled t op) := by
  cases op <;> simp only [opEnabled] <;> infer_instance

/-- One step of the per-turn workflow: the operation is enabled and the
turn is updated as the corresponding handler updates it. -/
def Step (t : Turn) (op : Op) (t2 : Turn) : Prop :=
  opEnabled t op ∧ t2 = applyOp t op

/-- The stage transitions that the spec's transition graph allows:
`classifying → rewritten → answering → done`. -/
def allowedAdvance (s1 s2 : Stage) : Bool :=
  match s1, s2 with
  | Stage.classifying, Stage.rewritten => true
  | Stage.rewritten, Stage.answering => true
  | Stage.answering, Stage.done => true
  | _, _ => false

/-- Stages a turn can have while it sits in the visible `turns` list:
turns enter the list at stage `answering` (enhancer-off submit, or
`choosePromptVersion` on the pending turn) and finish at `done`. -/
def turnsInv (ts : List Turn) : Prop :=
  ∀ t ∈ ts, t.reasoningStage = Stage.answering ∨ t.reasoningStage = Stage.done

/-- Operations that the source applies to the visible `turns` list via
`setTurns(prev => prev.map(...))`.  The `/interact` classification
callbacks (`interactOk` / `interactFail`) and the pending-branch
regenerate only ever touch the separate `pendingTurn` slot, never the
list. -/
def listOp : Op → Prop
  | Op.interactOk _ => False
  | Op.interactFail _ => False
  | Op.regen _ => False
  | Op.rehydrate => False
  | _ => True

/-- The map-by-id update pattern `prev.map(t => t.id === turnId ? patch(t) : t)`. -/
def updateTurnById (ts : List Turn) (tid : String) (f : Turn → Turn) : List Turn :=
  ts.map (fun t => if t.id = tid then f t else t)

/-- One mutation of the visible `turns` list, read off the `setTurns`
call sites of Interaction.jsx: appending the enhancer-off turn (line
187), appending the resolved pending turn (line 449), a map-by-id
update with one of the list-reaching operations, the regenerate update
for a turn already in the list (lines 572-583), and replacing the whole
list with the rehydrated stored turns of a conversation (lines 50-62
and 664-676; the stored list was itself persisted from a visible list,
so it satisfies `turnsInv`). -/
inductive TurnsStep : List Turn → List Turn → Prop where
  | appendOff (ts : List Turn) (tid : String) (cid : Option String) (p : String) :
      TurnsStep ts (ts ++ [submitDisabledTurn tid cid p])
  | appendResolved (ts : List Turn) (pend : Turn) (v : Variant) (d : String) :
      TurnsStep ts (ts ++ [(resolveTurn pend v d).1])
  | updateOp (ts : List Turn) (tid : String) (op : Op) (hop : listOp op) :
      TurnsStep ts (updateTurnById ts tid (fun t => applyOp t op))
  | regenExisting (ts : List Turn) (tid : String) (r : InteractResponse) :
      TurnsStep ts (updateTurnById ts tid (fun t => applyRegenerateExisting t r))
  | reload (ts stored : List Turn) (hstored : turnsInv stored) :
      TurnsStep ts ((completeTurns stored).map rehydrateTurn)

/-- The invariant the spec states for the edited prompt, weakened to the
direction the code maintains, together with the fact that a stored
edited prompt is never the empty string. -/
def editedInv (t : Turn) : Prop :=
  (t.chosenPromptVersion = some Variant.edited → t.edited_prompt ≠ none) ∧
  t.edited_prompt ≠ some ""

instance (t : Turn) : Decidable (editedInv t) := by
  unfold editedInv; infer_instance

instance (ts : List Turn) : Decidable (turnsInv ts) := by
  unfold turnsInv; infer_instance

/-- The effective variant is `edited` only when the edit check fired. -/
theorem actualVersionOf_eq_edited {v : Variant} {ed : Bool}
    (h : actualVersionOf v ed = Variant.edited) : ed = true := by
  cases v <;> cases ed <;> simp_all [actualVersionOf]

/-- The edit check only fires on a non-empty trimmed draft. -/
theorem isEditedDraft_ne_empty {rp : Option String} {d : String}
    (h : isEditedDraft rp d = true) : d ≠ "" := by
  cases rp with
  | none => simp [isEditedDraft] at h
  | some r =>
      simp only [isEditedDraft, decide_eq_true_eq] at h
      exact h.2.2

/-- Sample `/interact` response used by the concrete witnesses. -/
def sampleResponse : InteractResponse :=
  { interaction_id := "i1"
    conversationId := "c1"
    intent := some "conceptual"
    topic := some "reinforcement learning"
    rewritten_prompt := some "R"
    rewrite_strategy := some "learning_explanation"
    decisionRationale := "Rewrote for depth. Added structure."
    promptFeedback := some "- added structure"
    final_answer := none
    showReasoning := some true }

/-- Sample pending turn: enhancer-on submit of a prompt. -/
def samplePending : Turn := submitEnabledTurn "t1" none "What is RL?" "learning"

/-- Sample turn in stage `rewritten` after a successful classification. -/
def sampleRewritten : Turn := applyInteractEnabled samplePending sampleResponse

/-- Sample turn in stage `answering` after the user picked the rewrite. -/
def sampleAnswering : Turn := (resolveTurn sampleRewritten Variant.rewritten "R").1

/-- Sample finished turn. -/
def sampleDoneTurn : Turn := applyAnswerSuccess sampleAnswering "An answer."

/-- Sample regenerate response carrying a different intent and topic. -/
def sampleRegenResponse : InteractResponse :=
  { sampleResponse with
    intent := some "debugging"
    topic := some "math"
    rewritten_prompt := some "R2"
    interaction_id := "i2" }

/-- Sample conversations map whose key order (creation order) disagrees
with the `updatedAt` order: conversations are created in the order A, B,
C, then A is re-saved (e.g. switched to and extended) after C existed. -/
def sampleConvs : ConvMap :=
  [("A", { turns := [], title := "a", updatedAt := 30 }),
   ("B", { turns := [], title := "b", updatedAt := 40 }),
   ("C", { turns := [], title := "c", updatedAt := 20 })]

/-- C1 counterexample: from a turn in stage `rewritten` whose stored
rewritten prompt is "R" and which satisfies the claimed iff-invariant,
resolving with variant `original` while the draft reads "X" is a legal
`choosePromptVersion` step, records the chosen variant `original`, and
nevertheless stores "X" as the edited prompt — so the edited prompt is
non-null while the chosen variant is not `edited`, refuting the claim
that the invariant survives every operation and that variant `original`
always leaves the edited prompt null. -/
theorem claim_c1_counterexample :
    Step sampleRewritten (Op.choose Variant.original "X")
      (resolveTurn sampleRewritten Variant.original "X").1 ∧
    (sampleRewritten.edited_prompt ≠ none ↔
      sampleRewritten.chosenPromptVersion = some Variant.edited) ∧
    (resolveTurn sampleRewritten Variant.original "X").1.chosenPromptVersion =
      some Variant.original ∧
    (resolveTurn sampleRewritten Variant.original "X").1.edited_prompt = some "X" ∧
    ¬ ((resolveTurn sampleRewritten Variant.original "X").1.edited_prompt ≠ none ↔
      (resolveTurn sampleRewritten Variant.original "X").1.chosenPromptVersion =
        some Variant.edited) :=
  ⟨⟨by decide, rfl⟩, by decide, by decide, by decide, by decide⟩

/-- C1 (amended): the direction the code maintains is an invariant of
every operation: whenever the chosen variant is `edited` the edited
prompt is non-null (and never the empty string, so it also survives the
persistence round-trip); the converse fails, because resolving with
variant `original` after editing the draft stores the draft as the
edited prompt while recording variant `original`. -/
theorem claim_c1_edited_invariant (t : Turn) (op : Op) (t2 : Turn)
    (hInv : editedInv t) (hStep : Step t op t2) : editedInv t2 := by
  obtain ⟨hen, rfl⟩ := hStep
  cases op with
  | interactOk r =>
      exact ⟨fun h => hInv.1 h, hInv.2⟩
  | interactFail m =>
      exact ⟨fun h => hInv.1 h, hInv.2⟩
  | interactOffOk r =>
      exact ⟨fun h => hInv.1 h, hInv.2⟩
  | interactOffFail m =>
      exact ⟨fun h => hInv.1 h, hInv.2⟩
  | answerOk a =>
      exact ⟨fun h => hInv.1 h, hInv.2⟩
  | answerFail m =>
      exact ⟨fun h => hInv.1 h, hInv.2⟩
  | regen r =>
      exact ⟨fun h => by simp [applyOp, applyRegeneratePending] at h ⊢; exact absurd h (by simp [hen.2]),
             by simp [applyOp, applyRegeneratePending]⟩
  | rehydrate =>
      refine ⟨fun h => ?_, ?_⟩
      · have h1 := hInv.1 h
        simp only [applyOp, rehydrateTurn] at h ⊢
        cases he : t.edited_prompt with
        | none => exact absurd he h1
        | some s =>
            have hs : s ≠ "" := fun hse => hInv.2 (by rw [he, hse])
            simp [jsOrNull, he, hs]
      · simp only [applyOp, rehydrateTurn]
        cases he : t.edited_prompt with
        | none => simp [jsOrNull]
        | some s =>
            have hs : s ≠ "" := fun hse => hInv.2 (by rw [he, hse])
            simp [jsOrNull, hs]
  | choose v d =>
      simp only [applyOp, resolveTurn, editedInv]
      constructor
      · intro hav
        have hed : isEditedDraft t.rewritten_prompt (jsTrim d) = true := by
          have := actualVersionOf_eq_edited (Option.some.inj hav)
          exact this
        simp [finalEditedPromptOf, hed]
      · intro hfe
        rw [finalEditedPromptOf] at hfe
        by_cases hc : actualVersionOf v (isEditedDraft t.rewritten_prompt (jsTrim d)) =
            Variant.edited ∨ isEditedDraft t.rewritten_prompt (jsTrim d) = true
        · rw [if_pos hc] at hfe
          have hed : isEditedDraft t.rewritten_prompt (jsTrim d) = true := by
            cases hc with
            | inl h1 => exact actualVersionOf_eq_edited h1
            | inr h2 => exact h2
          exact isEditedDraft_ne_empty hed (Option.some.inj hfe)
        · rw [if_neg hc] at hfe
          exact Option.noConfusion hfe

/-- C1 witness: the amended invariant applied to a concrete step. -/
theorem claim_c1_witness : editedInv (resolveTurn sampleRewritten Variant.rewritten "X").1 :=
  claim_c1_edited_invariant sampleRewritten (Op.choose Variant.rewritten "X")
    (resolveTurn sampleRewritten Variant.rewritten "X").1
    (by decide) ⟨by decide, rfl⟩

/-- C2 counterexample: a classification failure moves the pending turn
from stage `classifying` directly to `done`, skipping `rewritten` and
`answering`, so it is not true that every operation either leaves the
stage unchanged or advances it along one edge of the claimed graph. -/
theorem claim_c2_counterexample :
    ¬ (∀ (t : Turn) (op : Op) (t2 : Turn), Step t op t2 →
        t2.reasoningStage = t.reasoningStage ∨
        allowedAdvance t.reasoningStage t2.reasoningStage = true) := by
  intro h
  have h2 := h samplePending (Op.interactFail "network error")
    (applyInteractFailure samplePending "network error") ⟨by decide, rfl⟩
  revert h2
  decide

/-- C2 (amended): every operation either leaves the stage unchanged
(`regenerate` and rehydration) or advances it along
`classifying → rewritten → answering → done`, with exactly two extra
edges the claim's graph omits: a classification failure jumps
`classifying → done`, and resolving a classification-failed turn (stage
`done`, intent set, no chosen variant) through `choosePromptVersion`
moves it back from `done` to `answering`. -/
theorem claim_c2_stage_transitions (t : Turn) (op : Op) (t2 : Turn) (h : Step t op t2) :
    t2.reasoningStage = t.reasoningStage ∨
    allowedAdvance t.reasoningStage t2.reasoningStage = true ∨
    (t.reasoningStage = Stage.classifying ∧ t2.reasoningStage = Stage.done ∧
      ∃ m, op = Op.interactFail m) ∨
    (t.reasoningStage = Stage.done ∧ t2.reasoningStage = Stage.answering ∧
      ∃ v d, op = Op.choose v d) := by
  obtain ⟨hen, rfl⟩ := h
  cases op with
  | interactOk r =>
      refine Or.inr (Or.inl ?_)
      have hs : t.reasoningStage = Stage.classifying := hen
      simp only [applyOp, applyInteractEnabled, hs]
      rfl
  | interactFail m =>
      exact Or.inr (Or.inr (Or.inl ⟨hen, rfl, m, rfl⟩))
  | interactOffOk r =>
      refine Or.inr (Or.inl ?_)
      have hs : t.reasoningStage = Stage.answering := hen
      simp only [applyOp, applyInteractDisabled, hs]
      rfl
  | interactOffFail m =>
      refine Or.inr (Or.inl ?_)
      have hs : t.reasoningStage = Stage.answering := hen
      simp only [applyOp, applyAnswerFailure, hs]
      rfl
  | answerOk a =>
      refine Or.inr (Or.inl ?_)
      have hs : t.reasoningStage = Stage.answering := hen
      simp only [applyOp, applyAnswerSuccess, hs]
      rfl
  | answerFail m =>
      refine Or.inr (Or.inl ?_)
      have hs : t.reasoningStage = Stage.answering := hen
      simp only [applyOp, applyAnswerFailure, hs]
      rfl
  | regen r => exact Or.inl rfl
  | rehydrate => exact Or.inl rfl
  | choose v d =>
      obtain ⟨h1, h2, _h3, _h4⟩ := hen
      have hst : (applyOp t (Op.choose v d)).reasoningStage = Stage.answering := rfl
      cases hs : t.reasoningStage with
      | classifying => exact absurd hs h1
      | answering => exact absurd hs h2
      | rewritten => exact Or.inr (Or.inl rfl)
      | done => exact Or.inr (Or.inr (Or.inr ⟨rfl, hst, v, d, rfl⟩))

/-- C2 witness: the amended transition theorem applied to the concrete
classification-success step on the sample pending turn. -/
theorem claim_c2_witness :
    (applyOp samplePending (Op.interactOk sampleResponse)).reasoningStage =
      samplePending.reasoningStage ∨
    allowedAdvance samplePending.reasoningStage
      (applyOp samplePending (Op.interactOk sampleResponse)).reasoningStage = true ∨
    (samplePending.reasoningStage = Stage.classifying ∧
      (applyOp samplePending (Op.interactOk sampleResponse)).reasoningStage = Stage.done ∧
      ∃ m, Op.interactOk sampleResponse = Op.interactFail m) ∨
    (samplePending.reasoningStage = Stage.done ∧
      (applyOp samplePending (Op.interactOk sampleResponse)).reasoningStage = Stage.answering ∧
      ∃ v d, Op.interactOk sampleResponse = Op.choose v d) :=
  claim_c2_stage_transitions samplePending (Op.interactOk sampleResponse)
    (applyOp samplePending (Op.interactOk sampleResponse)) ⟨by decide, rfl⟩

/-- C3 counterexample: the persistence filter keys on the legacy loading
sentinels (`final_answer === '__LOADING__'`, `intent === 'loading'`),
not on the stage, so an enhancer-off turn still awaiting its answer
(stage `answering`, null answer) passes the filter, is persisted, and
survives rehydration still in stage `answering` — refuting the claim
that every persisted turn has a completed stage. -/
theorem claim_c3_counterexample :
    completeTurns [submitDisabledTurn "t9" none "hello"] =
      [submitDisabledTurn "t9" none "hello"] ∧
    (submitDisabledTurn "t9" none "hello").reasoningStage = Stage.answering ∧
    (rehydrateTurn (submitDisabledTurn "t9" none "hello")).reasoningStage =
      Stage.answering ∧
    ¬ (∀ (ts : List Turn), ∀ t ∈ completeTurns ts, t.reasoningStage = Stage.done) := by
  refine ⟨by decide, by decide, by decide, fun h => ?_⟩
  have h2 := h [submitDisabledTurn "t9" none "hello"]
    (submitDisabledTurn "t9" none "hello") (by decide)
  revert h2
  decide

/-- C3 (amended): the persistence filter removes only turns carrying
the legacy loading sentinels and does not inspect the stage; still, a
turn whose stage is `classifying` or `rewritten` never reaches the
persisted list, because every mutation of the visible `turns` list
keeps each element's stage in the set of answering-or-done stages — a turn enters the
list at `answering` and only ever moves to `done` — whereas a turn in
stage `answering` is persisted and survives a reload at that stage. -/
theorem claim_c3_persisted_stage_invariant (ts ts2 : List Turn)
    (hInv : turnsInv ts) (h : TurnsStep ts ts2) : turnsInv ts2 := by
  cases h with
  | appendOff tid cid p =>
      intro t ht
      rcases List.mem_append.mp ht with hl | hr
      · exact hInv t hl
      · rcases List.mem_singleton.mp hr with rfl
        exact Or.inl rfl
  | appendResolved pend v d =>
      intro t ht
      rcases List.mem_append.mp ht with hl | hr
      · exact hInv t hl
      · rcases List.mem_singleton.mp hr with rfl
        exact Or.inl rfl
  | updateOp tid op hop =>
      intro t ht
      rcases List.mem_map.mp ht with ⟨t0, ht0, heq⟩
      by_cases hid : t0.id = tid
      · rw [if_pos hid] at heq
        subst heq
        cases op with
        | interactOk r => exact absurd hop (by simp [listOp])
        | interactFail m => exact absurd hop (by simp [listOp])
        | regen r => exact absurd hop (by simp [listOp])
        | rehydrate => exact absurd hop (by simp [listOp])
        | interactOffOk r => exact Or.inr rfl
        | interactOffFail m => exact Or.inr rfl
        | choose v d => exact Or.inl rfl
        | answerOk a => exact Or.inr rfl
        | answerFail m => exact Or.inr rfl
      · rw [if_neg hid] at heq
        subst heq
        exact hInv t0 ht0
  | regenExisting tid r =>
      intro t ht
      rcases List.mem_map.mp ht with ⟨t0, ht0, heq⟩
      by_cases hid : t0.id = tid
      · rw [if_pos hid] at heq
        subst heq
        exact hInv t0 ht0
      · rw [if_neg hid] at heq
        subst heq
        exact hInv t0 ht0
  | reload stored hstored =>
      intro t ht
      rcases List.mem_map.mp ht with ⟨t0, ht0, heq⟩
      subst heq
      exact hstored t0 (List.mem_of_mem_filter ht0)

/-- C3 witness: the amended list invariant applied to a concrete append
step starting from the empty visible list. -/
theorem claim_c3_witness : turnsInv ([] ++ [submitDisabledTurn "t2" none "hi"]) :=
  claim_c3_persisted_stage_invariant [] ([] ++ [submitDisabledTurn "t2" none "hi"])
    (by decide) (TurnsStep.appendOff [] "t2" none "hi")

/-- C4: for a turn in stage `rewritten` whose stored rewritten prompt
exists (non-null and non-empty, matching the claim's premise that a
stored rewritten prompt is there to compare the draft against) and for
the variants the UI actually requests (`original` or `rewritten`,
Interaction.jsx lines 1001-1005), `choosePromptVersion` resolves the
effective variant and the answer prompt exactly as the claim states:
a `rewritten` request with a trimmed draft that is non-empty and
differs from the stored rewrite is reclassified as `edited` with the
draft stored and answered; otherwise the requested variant stands, and
the answer call uses the stored rewrite for `rewritten` and the
original prompt for `original`. -/
theorem claim_c4_choose_resolution (t : Turn) (r : String) (v : Variant) (draft : String)
    (hstage : t.reasoningStage = Stage.rewritten)
    (hrp : t.rewritten_prompt = some r) (hr : r ≠ "") (hv : v ≠ Variant.edited) :
    (v = Variant.rewritten → jsTrim draft ≠ "" → jsTrim draft ≠ r →
      (resolveTurn t v draft).1.chosenPromptVersion = some Variant.edited ∧
      (resolveTurn t v draft).1.edited_prompt = some (jsTrim draft) ∧
      (resolveTurn t v draft).2 = jsTrim draft) ∧
    (v = Variant.rewritten → (jsTrim draft = "" ∨ jsTrim draft = r) →
      (resolveTurn t v draft).1.chosenPromptVersion = some Variant.rewritten ∧
      (resolveTurn t v draft).1.edited_prompt = none ∧
      (resolveTurn t v draft).2 = r) ∧
    (v = Variant.original →
      (resolveTurn t v draft).1.chosenPromptVersion = some Variant.original ∧
      (resolveTurn t v draft).2 = t.originalPrompt) := by
  refine ⟨?_, ?_, ?_⟩
  · rintro rfl hd1 hd2
    have hed : isEditedDraft t.rewritten_prompt (jsTrim draft) = true := by
      rw [hrp]
      simp [isEditedDraft, hr, hd1, hd2]
    simp [resolveTurn, actualVersionOf, finalEditedPromptOf, promptForAnswerOf,
      hed, strTruthy, hd1]
  · rintro rfl hd
    have hed : isEditedDraft (some r) (jsTrim draft) = false := by
      rcases hd with hd | hd <;> simp [isEditedDraft, hd]
    simp [resolveTurn, hrp, hed, actualVersionOf, finalEditedPromptOf,
      promptForAnswerOf, strTruthy, hr]
  · rintro rfl
    simp [resolveTurn, actualVersionOf, promptForAnswerOf]

/-- C4 witness: the resolution theorem applied to the sample rewritten
turn with an edited draft. -/
theorem claim_c4_witness :
    (Variant.rewritten = Variant.rewritten → jsTrim " R2 " ≠ "" → jsTrim " R2 " ≠ "R" →
      (resolveTurn sampleRewritten Variant.rewritten " R2 ").1.chosenPromptVersion =
        some Variant.edited ∧
      (resolveTurn sampleRewritten Variant.rewritten " R2 ").1.edited_prompt =
        some (jsTrim " R2 ") ∧
      (resolveTurn sampleRewritten Variant.rewritten " R2 ").2 = jsTrim " R2 ") ∧
    (Variant.rewritten = Variant.rewritten →
      (jsTrim " R2 " = "" ∨ jsTrim " R2 " = "R") →
      (resolveTurn sampleRewritten Variant.rewritten " R2 ").1.chosenPromptVersion =
        some Variant.rewritten ∧
      (resolveTurn sampleRewritten Variant.rewritten " R2 ").1.edited_prompt = none ∧
      (resolveTurn sampleRewritten Variant.rewritten " R2 ").2 = "R") ∧
    (Variant.rewritten = Variant.original →
      (resolveTurn sampleRewritten Variant.rewritten " R2 ").1.chosenPromptVersion =
        some Variant.original ∧
      (resolveTurn sampleRewritten Variant.rewritten " R2 ").2 =
        sampleRewritten.originalPrompt) :=
  claim_c4_choose_resolution sampleRewritten "R" Variant.rewritten " R2 "
    (by decide) (by decide) (by decide) (by decide)

/-- C10: choosing variant `rewritten` on a turn in stage `rewritten`
whose rewritten prompt is null never reclassifies to `edited`, whatever
the draft text: the chosen variant is recorded as `rewritten`, the
edited prompt stays null, and the answer call is issued with the
original prompt. -/
theorem claim_c10_choose_without_rewrite (t : Turn) (draft : String)
    (hrp : t.rewritten_prompt = none) (hstage : t.reasoningStage = Stage.rewritten) :
    (resolveTurn t Variant.rewritten draft).1.chosenPromptVersion =
      some Variant.rewritten ∧
    (resolveTurn t Variant.rewritten draft).1.edited_prompt = none ∧
    (resolveTurn t Variant.rewritten draft).2 = t.originalPrompt := by
  have hed : isEditedDraft none (jsTrim draft) = false := rfl
  refine ⟨?_, ?_, ?_⟩
  · simp [resolveTurn, hrp, actualVersionOf, hed]
  · simp [resolveTurn, hrp, actualVersionOf, finalEditedPromptOf, hed]
  · simp [resolveTurn, hrp, actualVersionOf, promptForAnswerOf, finalEditedPromptOf,
      hed, strTruthy]

/-- C10 witness: the theorem applied to a concrete turn whose
classification returned no rewrite. -/
theorem claim_c10_witness :
    (resolveTurn { sampleRewritten with rewritten_prompt := none }
        Variant.rewritten "X").1.chosenPromptVersion = some Variant.rewritten ∧
    (resolveTurn { sampleRewritten with rewritten_prompt := none }
        Variant.rewritten "X").1.edited_prompt = none ∧
    (resolveTurn { sampleRewritten with rewritten_prompt := none }
        Variant.rewritten "X").2 =
      ({ sampleRewritten with rewritten_prompt := none } : Turn).originalPrompt :=
  claim_c10_choose_without_rewrite { sampleRewritten with rewritten_prompt := none }
    "X" rfl (by decide)

/-- C5 counterexample: deleting the active conversation "B" from a map
whose key (creation) order is A, B, C but where A was updated after C
activates "C" — the last remaining key in insertion order — even though
the most recently updated remaining conversation is "A", refuting the
claimed fallback to the most recently updated conversation. -/
theorem claim_c5_counterexample :
    (handleConfirmDelete sampleConvs (some "B") [] "B").conversationId = some "C" ∧
    mostRecentlyUpdated (removeConv sampleConvs "B") = some "A" ∧
    (handleConfirmDelete sampleConvs (some "B") [] "B").conversationId ≠
      mostRecentlyUpdated (removeConv sampleConvs "B") := by
  refine ⟨by decide, by decide, by decide⟩

/-- C5 (amended): deleting the active conversation removes its entry
and falls back to the remaining conversation whose key comes last in
the map's insertion order (the most recently created persisted
conversation), rehydrating its stored turns — not to the most recently
updated one; when no conversation remains, a fresh empty conversation
(null active pointer, empty turn list) becomes active. -/
theorem claim_c5_delete_fallback (convs : ConvMap) (active : Option String)
    (cur : List Turn) (target : String) (hact : active = some target) :
    (handleConfirmDelete convs active cur target).conversations =
      removeConv convs target ∧
    (((convs.map Prod.fst).filter (fun i => decide (i ≠ target))) = [] →
      (handleConfirmDelete convs active cur target).conversationId = none ∧
      (handleConfirmDelete convs active cur target).turns = []) ∧
    (∀ lastId,
      ((convs.map Prod.fst).filter (fun i => decide (i ≠ target))).getLast? =
        some lastId →
      ∀ conv, lookupConv convs lastId = some conv →
        (handleConfirmDelete convs active cur target).conversationId = some lastId ∧
        (handleConfirmDelete convs active cur target).turns =
          conv.turns.map rehydrateTurn) := by
  subst hact
  refine ⟨?_, ?_, ?_⟩
  · simp only [handleConfirmDelete, if_pos rfl]
    cases hrem : ((convs.map Prod.fst).filter (fun i => decide (i ≠ target))).getLast? with
    | none => rfl
    | some lastId =>
        cases hlk : lookupConv convs lastId <;> simp [hrem, hlk]
  · intro hempty
    simp only [handleConfirmDelete, if_pos rfl, hempty]
    exact ⟨rfl, rfl⟩
  · intro lastId hlast conv hconv
    simp only [handleConfirmDelete, if_pos rfl, hlast, hconv]
    exact ⟨rfl, rfl⟩

/-- C5 witness: the amended deletion theorem applied to the sample
conversations map with active conversation "B". -/
theorem claim_c5_witness :
    (handleConfirmDelete sampleConvs (some "B") [] "B").conversations =
      removeConv sampleConvs "B" ∧
    (((sampleConvs.map Prod.fst).filter (fun i => decide (i ≠ "B"))) = [] →
      (handleConfirmDelete sampleConvs (some "B") [] "B").conversationId = none ∧
      (handleConfirmDelete sampleConvs (some "B") [] "B").turns = []) ∧
    (∀ lastId,
      ((sampleConvs.map Prod.fst).filter (fun i => decide (i ≠ "B"))).getLast? =
        some lastId →
      ∀ conv, lookupConv sampleConvs lastId = some conv →
        (handleConfirmDelete sampleConvs (some "B") [] "B").conversationId =
          some lastId ∧
        (handleConfirmDelete sampleConvs (some "B") [] "B").turns =
          conv.turns.map rehydrateTurn) :=
  claim_c5_delete_fallback sampleConvs (some "B") [] "B" rfl

/-- C6 counterexample: regenerating the sample rewritten turn (stage
`rewritten`, mode `learning`, intent `conceptual`) with a response whose
newly detected intent is `debugging` leaves the stored intent at
`conceptual` in both the pending-turn branch and the existing-turn
branch of `handleRegenerate` — the new intent and topic are discarded,
refuting the claim that the new values win. -/
theorem claim_c6_counterexample :
    sampleRewritten.reasoningStage = Stage.rewritten ∧
    sampleRewritten.mode = some "learning" ∧
    sampleRegenResponse.intent = some "debugging" ∧
    sampleRegenResponse.topic = some "math" ∧
    (applyRegeneratePending sampleRewritten sampleRegenResponse).intent =
      some "conceptual" ∧
    (applyRegenerateExisting sampleRewritten sampleRegenResponse).intent =
      some "conceptual" ∧
    (applyRegeneratePending sampleRewritten sampleRegenResponse).topic =
      some "reinforcement learning" ∧
    (applyRegeneratePending sampleRewritten sampleRegenResponse).intent ≠
      sampleRegenResponse.intent := by
  refine ⟨by decide, by decide, by decide, by decide, by decide, by decide,
    by decide, by decide⟩

/-- C6 (amended): for a turn in stage `rewritten` with a learning mode
set, regenerate replaces the rewrite-related fields (rewritten prompt —
with an empty string coerced to null — strategy, rationale, feedback),
resets the edited prompt to absent, and in the pending-turn branch also
updates the interaction id; it preserves the turn identity, original
prompt, mode, stage, chosen variant and final answer, and it preserves
the previously detected intent and topic unconditionally — new values
returned by the call are discarded, in both branches. -/
theorem claim_c6_regenerate_frame (t : Turn) (r : InteractResponse) (m : String)
    (hmode : t.mode = some m) (hstage : t.reasoningStage = Stage.rewritten) :
    (applyRegeneratePending t r).rewritten_prompt = jsOrNull r.rewritten_prompt ∧
    (applyRegeneratePending t r).rewrite_strategy = r.rewrite_strategy ∧
    (applyRegeneratePending t r).decisionRationale = some r.decisionRationale ∧
    (applyRegeneratePending t r).promptFeedback = r.promptFeedback ∧
    (applyRegeneratePending t r).edited_prompt = none ∧
    (applyRegeneratePending t r).interaction_id = some r.interaction_id ∧
    (applyRegeneratePending t r).id = t.id ∧
    (applyRegeneratePending t r).originalPrompt = t.originalPrompt ∧
    (applyRegeneratePending t r).mode = t.mode ∧
    (applyRegeneratePending t r).intent = t.intent ∧
    (applyRegeneratePending t r).topic = t.topic ∧
    (applyRegeneratePending t r).final_answer = t.final_answer ∧
    (applyRegeneratePending t r).reasoningStage = t.reasoningStage ∧
    (applyRegeneratePending t r).chosenPromptVersion = t.chosenPromptVersion ∧
    (applyRegenerateExisting t r).interaction_id = t.interaction_id ∧
    (applyRegenerateExisting t r).intent = t.intent ∧
    (applyRegenerateExisting t r).topic = t.topic ∧
    (applyRegenerateExisting t r).final_answer = t.final_answer ∧
    (applyRegenerateExisting t r).edited_prompt = none :=
  ⟨rfl, rfl, rfl, rfl, rfl, rfl, rfl, rfl, rfl, rfl, rfl, rfl, rfl, rfl, rfl,
    rfl, rfl, rfl, rfl⟩

/-- C6 witness: the regenerate frame theorem applied to the sample
rewritten turn and the sample regenerate response. -/
theorem claim_c6_witness :
    (applyRegeneratePending sampleRewritten sampleRegenResponse).rewritten_prompt =
      jsOrNull sampleRegenResponse.rewritten_prompt ∧
    (applyRegeneratePending sampleRewritten sampleRegenResponse).rewrite_strategy =
      sampleRegenResponse.rewrite_strategy ∧
    (applyRegeneratePending sampleRewritten sampleRegenResponse).decisionRationale =
      some sampleRegenResponse.decisionRationale ∧
    (applyRegeneratePending sampleRewritten sampleRegenResponse).promptFeedback =
      sampleRegenResponse.promptFeedback ∧
    (applyRegeneratePending sampleRewritten sampleRegenResponse).edited_prompt = none ∧
    (applyRegeneratePending sampleRewritten sampleRegenResponse).interaction_id =
      some sampleRegenResponse.interaction_id ∧
    (applyRegeneratePending sampleRewritten sampleRegenResponse).id =
      sampleRewritten.id ∧
    (applyRegeneratePending sampleRewritten sampleRegenResponse).originalPrompt =
      sampleRewritten.originalPrompt ∧
    (applyRegeneratePending sampleRewritten sampleRegenResponse).mode =
      sampleRewritten.mode ∧
    (applyRegeneratePending sampleRewritten sampleRegenResponse).intent =
      sampleRewritten.intent ∧
    (applyRegeneratePending sampleRewritten sampleRegenResponse).topic =
      sampleRewritten.topic ∧
    (applyRegeneratePending sampleRewritten sampleRegenResponse).final_answer =
      sampleRewritten.final_answer ∧
    (applyRegeneratePending sampleRewritten sampleRegenResponse).reasoningStage =
      sampleRewritten.reasoningStage ∧
    (applyRegeneratePending sampleRewritten sampleRegenResponse).chosenPromptVersion =
      sampleRewritten.chosenPromptVersion ∧
    (applyRegenerateExisting sampleRewritten sampleRegenResponse).interaction_id =
      sampleRewritten.interaction_id ∧
    (applyRegenerateExisting sampleRewritten sampleRegenResponse).intent =
      sampleRewritten.intent ∧
    (applyRegenerateExisting sampleRewritten sampleRegenResponse).topic =
      sampleRewritten.topic ∧
    (applyRegenerateExisting sampleRewritten sampleRegenResponse).final_answer =
      sampleRewritten.final_answer ∧
    (applyRegenerateExisting sampleRewritten sampleRegenResponse).edited_prompt =
      none :=
  claim_c6_regenerate_frame sampleRewritten sampleRegenResponse "learning"
    (by decide) (by decide)

/-- C7: when the `/answer` call for a turn awaiting its answer fails,
the single catch-branch update terminates the turn in stage `done` with
the error-sentinel string `Error: <message>` stored as the answer, and
every other field — the chosen variant and all rewrite metadata
gathered earlier (rewritten prompt, strategy, rationale, feedback,
intent, topic, edited prompt, interaction id) — is unchanged; no retry
is modelled because the handler performs exactly this one update. -/
theorem claim_c7_answer_failure (t : Turn) (msg : String) (t2 : Turn)
    (h : Step t (Op.answerFail msg) t2) :
    t2.reasoningStage = Stage.done ∧
    t2.final_answer = some ("Error: " ++ msg) ∧
    t2.chosenPromptVersion = t.chosenPromptVersion ∧
    t2.rewritten_prompt = t.rewritten_prompt ∧
    t2.rewrite_strategy = t.rewrite_strategy ∧
    t2.decisionRationale = t.decisionRationale ∧
    t2.promptFeedback = t.promptFeedback ∧
    t2.intent = t.intent ∧
    t2.topic = t.topic ∧
    t2.edited_prompt = t.edited_prompt ∧
    t2.interaction_id = t.interaction_id ∧
    t2.id = t.id ∧
    t2.originalPrompt = t.originalPrompt := by
  obtain ⟨hen, rfl⟩ := h
  exact ⟨rfl, rfl, rfl, rfl, rfl, rfl, rfl, rfl, rfl, rfl, rfl, rfl, rfl⟩

/-- C7 witness: the answer-failure theorem applied to the sample turn in
stage `answering`. -/
theorem claim_c7_witness :
    (applyOp sampleAnswering (Op.answerFail "timeout")).reasoningStage = Stage.done ∧
    (applyOp sampleAnswering (Op.answerFail "timeout")).final_answer =
      some ("Error: " ++ "timeout") ∧
    (applyOp sampleAnswering (Op.answerFail "timeout")).chosenPromptVersion =
      sampleAnswering.chosenPromptVersion ∧
    (applyOp sampleAnswering (Op.answerFail "timeout")).rewritten_prompt =
      sampleAnswering.rewritten_prompt ∧
    (applyOp sampleAnswering (Op.answerFail "timeout")).rewrite_strategy =
      sampleAnswering.rewrite_strategy ∧
    (applyOp sampleAnswering (Op.answerFail "timeout")).decisionRationale =
      sampleAnswering.decisionRationale ∧
    (applyOp sampleAnswering (Op.answerFail "timeout")).promptFeedback =
      sampleAnswering.promptFeedback ∧
    (applyOp sampleAnswering (Op.answerFail "timeout")).intent =
      sampleAnswering.intent ∧
    (applyOp sampleAnswering (Op.answerFail "timeout")).topic =
      sampleAnswering.topic ∧
    (applyOp sampleAnswering (Op.answerFail "timeout")).edited_prompt =
      sampleAnswering.edited_prompt ∧
    (applyOp sampleAnswering (Op.answerFail "timeout")).interaction_id =
      sampleAnswering.interaction_id ∧
    (applyOp sampleAnswering (Op.answerFail "timeout")).id = sampleAnswering.id ∧
    (applyOp sampleAnswering (Op.answerFail "timeout")).originalPrompt =
      sampleAnswering.originalPrompt :=
  claim_c7_answer_failure sampleAnswering "timeout"
    (applyOp sampleAnswering (Op.answerFail "timeout")) ⟨by decide, rfl⟩

/-- A turn is normalized when none of the nullable fields that the
rehydration coerces with `x || null` holds an empty string and neither
legacy loading sentinel is present.  Every value the component itself
writes into these fields is either null or non-empty, but the fields
are populated verbatim from backend responses, which the types allow to
carry empty strings. -/
def normalizedTurn (t : Turn) : Prop :=
  t.edited_prompt ≠ some "" ∧
  t.rewrite_strategy ≠ some "" ∧
  t.decisionRationale ≠ some "" ∧
  t.promptFeedback ≠ some "" ∧
  t.interaction_id ≠ some "" ∧
  t.final_answer ≠ some "__LOADING__" ∧
  t.intent ≠ some "loading"

instance (t : Turn) : Decidable (normalizedTurn t) := by
  unfold normalizedTurn; infer_instance

/-- The rehydration coercion is the identity away from `some ""`. -/
theorem jsOrNull_eq_self {o : Option String} (h : o ≠ some "") : jsOrNull o = o := by
  cases o with
  | none => rfl
  | some s =>
      have hs : s ≠ "" := fun hse => h (by rw [hse])
      simp [jsOrNull, hs]

/-- Rehydration is the identity on normalized turns. -/
theorem rehydrateTurn_eq_self (t : Turn) (h : normalizedTurn t) :
    rehydrateTurn t = t := by
  obtain ⟨h1, h2, h3, h4, h5, _, _⟩ := h
  unfold rehydrateTurn
  rw [jsOrNull_eq_self h1, jsOrNull_eq_self h2, jsOrNull_eq_self h3,
    jsOrNull_eq_self h4, jsOrNull_eq_self h5]

/-- Sample finished turn whose rationale is the empty string, as a
backend response may deliver it. -/
def emptyRationaleTurn : Turn := { sampleDoneTurn with decisionRationale := some "" }

/-- C8 counterexample: a conversation consisting of one turn in stage
`done` whose decision rationale is the empty string does not round-trip:
the save effect persists the turn, but rehydration coerces the
empty-string rationale to null (`turn.decisionRationale || null`), so
the reloaded turn list differs from the persisted one. -/
theorem claim_c8_counterexample :
    emptyRationaleTurn.reasoningStage = Stage.done ∧
    ((persistConv [emptyRationaleTurn] 5).map
        (fun cd => cd.turns.map rehydrateTurn)) ≠ some [emptyRationaleTurn] := by
  refine ⟨by decide, by decide⟩

/-- C8 (amended): persisting then reloading a conversation whose turns
are all in stage `done` reproduces the same ordered turn list and the
same recomputed title, provided no nullable field of a turn holds an
empty string and no legacy loading sentinel is present — the reload
coerces empty-string fields to null and drops sentinel turns, and is
the identity otherwise. -/
theorem claim_c8_roundtrip (ts : List Turn) (now now2 : Nat)
    (hne : ts ≠ [])
    (hdone : ∀ t ∈ ts, t.reasoningStage = Stage.done)
    (hnorm : ∀ t ∈ ts, normalizedTurn t) :
    ∃ cd, persistConv ts now = some cd ∧
      cd.turns.map rehydrateTurn = ts ∧
      ∃ cd2, persistConv (cd.turns.map rehydrateTurn) now2 = some cd2 ∧
        cd2.title = cd.title ∧ cd2.turns = cd.turns := by
  have hcompl : completeTurns ts = ts := by
    rw [completeTurns, List.filter_eq_self]
    intro t ht
    have hn := hnorm t ht
    simp only [isCompleteTurn, decide_eq_true_eq]
    exact ⟨hn.2.2.2.2.2.1, hn.2.2.2.2.2.2⟩
  have hmap : ts.map rehydrateTurn = ts := by
    have : ts.map rehydrateTurn = ts.map id := by
      apply List.map_congr_left
      intro t ht
      exact rehydrateTurn_eq_self t (hnorm t ht)
    rw [this, List.map_id]
  cases ts with
  | nil => exact absurd rfl hne
  | cons t0 ts0 =>
      refine ⟨{ turns := t0 :: ts0
                title := computeTitle (jsOrStr (some t0.originalPrompt) "New Conversation")
                updatedAt := now }, ?_, hmap, ?_⟩
      · simp only [persistConv, hcompl]
        rfl
      · refine ⟨{ turns := t0 :: ts0
                  title := computeTitle (jsOrStr (some t0.originalPrompt) "New Conversation")
                  updatedAt := now2 }, ?_, rfl, rfl⟩
        rw [hmap]
        simp only [persistConv, hcompl]
        rfl

/-- C8 witness: the round-trip theorem applied to a conversation made of
the sample finished turn. -/
theorem claim_c8_witness :
    ∃ cd, persistConv [sampleDoneTurn] 1 = some cd ∧
      cd.turns.map rehydrateTurn = [sampleDoneTurn] ∧
      ∃ cd2, persistConv (cd.turns.map rehydrateTurn) 2 = some cd2 ∧
        cd2.title = cd.title ∧ cd2.turns = cd.turns :=
  claim_c8_roundtrip [sampleDoneTurn] 1 2 (by decide) (by decide) (by decide)

/-- Modelled from the claim's wording for the bullet list: the ordered
list of trimmed non-empty lines of the feedback text with leading
bullet markers stripped and empty results dropped, falling back to the
whole trimmed text as a single bullet when no delimited bullets are
found and the text is non-empty. -/
def specFeedbackBullets (text : String) : List String :=
  let bullets := ((jsSplit text '\n').filter (fun l => decide (jsTrim l ≠ ""))).map
      (fun l => jsTrim (stripBulletMarker l)) |>.filter (fun s => decide (s ≠ ""))
  if bullets = [] ∧ jsTrim text ≠ "" then [jsTrim text] else bullets

/-- Modelled from the claim's wording for the summary: the rationale's
text up to and including the first period, or, when the rationale is
absent (null or empty, JS falsiness), a generic fallback sentence built
from the formatted intent. -/
def specSummary (rationale : Option String) (intent : Option String) : String :=
  if strTruthy rationale then
    let r := rationale.getD ""
    (jsSplit r '.').headD "" ++ (if r.data.contains '.' then "." else "")
  else
    "The agent interpreted your prompt as seeking " ++
      (if strTruthy intent then formatIntentWords (intent.getD "")
       else "understanding") ++ "."

/-- C9: the reasoning transform is a pure function of the turn's
feedback, rationale and intent fields: its bullet list equals the
claim's description of the bullet pipeline applied to the raw feedback
text (empty when there is no feedback), and its summary equals the
claim's first-sentence / fallback description. -/
theorem claim_c9_reasoning_transform (t : Turn) :
    (transformTurnToReasoningData t).reasoningBullets =
      (match t.promptFeedback with
       | none => []
       | some fb => specFeedbackBullets fb) ∧
    (transformTurnToReasoningData t).summary =
      specSummary t.decisionRationale t.intent := by
  constructor
  · cases hfb : t.promptFeedback with
    | none => simp [transformTurnToReasoningData, hfb]
    | some fb =>
        by_cases hfbe : fb = ""
        · subst hfbe
          simp [transformTurnToReasoningData, hfb, specFeedbackBullets]
          decide
        · simp [transformTurnToReasoningData, hfb, hfbe, specFeedbackBullets]
  · cases hr : t.decisionRationale with
    | none => simp [transformTurnToReasoningData, hr, specSummary, strTruthy]
    | some r =>
        by_cases hre : r = ""
        · subst hre
          simp [transformTurnToReasoningData, hr, specSummary, strTruthy]
        · simp [transformTurnToReasoningData, hr, hre, specSummary, strTruthy]

end PromptEnhancer
